import Mathlib

/-!
# auth1lib-go: the Auth1 client wrapper

A shallow embedding of `auth1wrap.go` (package `auth1lib`) and the properties of
its four operations: `NewClient`, `Close`, `SetApiKey` and `GetSiteJwtSecret`.

Conventions of the embedding

* A Go `string` is a Lean `String`; the operations the wrapper applies to strings
  (comparison, trimming one `/`, splitting on `/`) act on ASCII separators, so they
  agree on bytes and on code points.
* A Go `error` is its message; `nil` is `none`.
* A pointer that may be `nil` is an `Option`.
* `time.Duration` is a signed 64-bit count of nanoseconds: an `Int` reduced with
  `wrap64` after every multiplication. Go's `int` is taken as 64 bits wide.
* The library calls the wrapper makes (`url.ParseRequestURI`, `grpc.DialContext`,
  `ClientConn.Close`, the generated `Auth1Client.GetSiteJwtSecret` stub) are fields
  of an environment `Env`; theorems quantify over every environment. Each
  operation returns, next to its Go results, the list of effects it performed
  (`Event`), in order.
-/

namespace Auth1lib

/-! ## Go standard library: `strings` -/

namespace strings

/-- Go `strings.HasPrefix`. -/
def HasPrefix (s pre : String) : Bool :=
  pre.data.isPrefixOf s.data

/-- Go `strings.HasSuffix`. -/
def HasSuffix (s suffix : String) : Bool :=
  suffix.data.reverse.isPrefixOf s.data.reverse

/-- Go `strings.TrimPrefix`: `s` without the leading `pre`, or `s` itself when it
does not start with `pre`. -/
def TrimPrefix (s pre : String) : String :=
  if HasPrefix s pre then String.mk (s.data.drop pre.data.length) else s

/-- Go `strings.TrimSuffix`: `s` without the trailing `suffix`, or `s` itself when
it does not end with `suffix`. -/
def TrimSuffix (s suffix : String) : String :=
  if HasSuffix s suffix then String.mk (s.data.take (s.data.length - suffix.data.length)) else s

/-- Splitting a list of characters at every occurrence of `sep`; the segments
between separators, empty ones included. The empty input gives one empty
segment. -/
def splitList (sep : Char) : List Char → List (List Char)
  | [] => [[]]
  | c :: cs =>
    if c = sep then [] :: splitList sep cs
    else
      match splitList sep cs with
      | [] => [[c]]
      | seg :: segs => (c :: seg) :: segs

/-- Go `strings.Split(s, sep)` for a separator of one byte (the wrapper only
splits on `"/"`). -/
def Split (s : String) (sep : Char) : List String :=
  (splitList sep s.data).map String.mk

end strings

/-! ## Go standard library: `time` -/

/-- Reduction of an integer to the signed 64-bit range (two's complement
wrap-around), the result of Go arithmetic on `int64`. -/
def wrap64 (x : Int) : Int :=
  (x + 2 ^ 63) % 2 ^ 64 - 2 ^ 63

namespace time

/-- Go `time.Duration`: nanoseconds, `int64`. -/
abbrev Duration := Int

/-- Go `time.Second`. -/
def Second : Duration := 1000000000

end time

/-! ## Go standard library: `net/url` (the parts of `URL` that the wrapper reads) -/

namespace url

/-- Go `url.Userinfo`. -/
structure Userinfo where
  username : String
  password : String
  passwordSet : Bool
deriving DecidableEq, Repr

/-- Go `(*Userinfo).Username`: the user name, the empty string on a nil receiver. -/
def Userinfo.Username : Option Userinfo → String
  | none => ""
  | some u => u.username

/-- Go `url.URL` (without `RawPath`, `Fragment` and `RawFragment`, which
`ParseRequestURI` and the wrapper do not use). -/
structure URL where
  Scheme : String
  Opaque : String
  User : Option Userinfo
  Host : String
  Path : String
  ForceQuery : Bool
  RawQuery : String
  OmitHost : Bool
deriving DecidableEq, Repr

/-! ### A model of `url.ParseRequestURI`

The parser of the Go standard library, followed step by step (`parse` with
`viaRequest = true`, `getScheme`, `parseAuthority`, `parseHost`, `unescape`,
`setPath`). It is used to evaluate the wrapper on concrete URI strings; the
general theorems hold for every parser. A byte produced by a `%XX` escape is
represented by the character of that code, and an error by the message of the
inner error. -/

/-- Go `stringContainsCTLByte`. -/
def stringContainsCTLByte (s : List Char) : Bool :=
  s.any (fun b => b.toNat < 32 || b.toNat == 127)

/-- ASCII letters. -/
def isAlpha (c : Char) : Bool :=
  (97 ≤ c.toNat && c.toNat ≤ 122) || (65 ≤ c.toNat && c.toNat ≤ 90)

/-- ASCII digits. -/
def isDigit (c : Char) : Bool :=
  48 ≤ c.toNat && c.toNat ≤ 57

/-- The loop of Go `getScheme`; `seen` holds the bytes already read, last first. -/
def getSchemeLoop (rawURL : List Char) : List Char → List Char →
    Except String (List Char × List Char)
  | _, [] => .ok ([], rawURL)
  | seen, c :: cs =>
    if isAlpha c then getSchemeLoop rawURL (c :: seen) cs
    else if isDigit c || c = '+' || c = '-' || c = '.' then
      if seen = [] then .ok ([], rawURL) else getSchemeLoop rawURL (c :: seen) cs
    else if c = ':' then
      if seen = [] then .error "missing protocol scheme" else .ok (seen.reverse, cs)
    else .ok ([], rawURL)

/-- Go `getScheme`: the scheme and what follows its colon. -/
def getScheme (rawURL : List Char) : Except String (List Char × List Char) :=
  getSchemeLoop rawURL [] rawURL

/-- Go `strings.Cut(s, sep)` for a separator of one byte: the parts before and
after the first `sep`, or `s` and the empty string. -/
def cut (sep : Char) : List Char → List Char × List Char
  | [] => ([], [])
  | c :: cs => if c = sep then ([], cs) else ((cut sep cs).1.cons c, (cut sep cs).2)

/-- The parts before the last `sep` and from the last `sep` on, when `sep`
occurs (Go `strings.LastIndex` and the two slices taken at it). -/
def cutLast (sep : Char) : List Char → Option (List Char × List Char)
  | [] => none
  | c :: cs =>
    match cutLast sep cs with
    | some (a, b) => some (c :: a, b)
    | none => if c = sep then some ([], c :: cs) else none

/-- Go `ishex`. -/
def ishex (c : Char) : Bool :=
  isDigit c || (97 ≤ c.toNat && c.toNat ≤ 102) || (65 ≤ c.toNat && c.toNat ≤ 70)

/-- Go `unhex`. -/
def unhex (c : Char) : Nat :=
  if isDigit c then c.toNat - 48
  else if 97 ≤ c.toNat && c.toNat ≤ 102 then c.toNat - 97 + 10
  else if 65 ≤ c.toNat && c.toNat ≤ 70 then c.toNat - 65 + 10
  else 0

/-- The modes of Go `unescape` that `ParseRequestURI` uses. -/
inductive encoding where
  | encodePath
  | encodeHost
  | encodeZone
  | encodeUserPassword
deriving DecidableEq, Repr

/-- Go `shouldEscape(c, encodeHost)`. -/
def shouldEscapeHost (c : Char) : Bool :=
  if isAlpha c || isDigit c then false
  else if c ∈ [ '!', '$', '&', Char.ofNat 39, '(', ')', '*', '+', ',', ';', '=', ':', '[', ']',
      '<', '>', Char.ofNat 34] then false
  else if c ∈ [ '-', '_', '.', '~'] then false
  else true

/-- Go `unescape(s, mode)`: the check of the escapes and of the bytes a host may
hold, and the decoding of `%XX`, in one pass. -/
def unescape (mode : encoding) : List Char → Except String (List Char)
  | [] => .ok []
  | '%' :: a :: b :: rest =>
    if !ishex a || !ishex b then .error "invalid URL escape"
    else if mode = encoding.encodeHost && unhex a < 8 && (a, b) ≠ ('2', '5') then
      .error "invalid URL escape"
    else if mode = encoding.encodeZone && (a, b) ≠ ('2', '5') && unhex a * 16 + unhex b ≠ 32 &&
        shouldEscapeHost (Char.ofNat (unhex a * 16 + unhex b)) then
      .error "invalid URL escape"
    else
      match unescape mode rest with
      | .ok r => .ok (Char.ofNat (unhex a * 16 + unhex b) :: r)
      | .error e => .error e
  | '%' :: _ => .error "invalid URL escape"
  | c :: rest =>
    if (mode = encoding.encodeHost || mode = encoding.encodeZone) && c.toNat < 128 &&
        shouldEscapeHost c then
      .error "invalid character in host name"
    else
      match unescape mode rest with
      | .ok r => .ok (c :: r)
      | .error e => .error e

/-- Go `validOptionalPort`. -/
def validOptionalPort : List Char → Bool
  | [] => true
  | c :: ds => c = ':' && ds.all isDigit

/-- Go `validUserinfo`. -/
def validUserinfo (s : List Char) : Bool :=
  s.all (fun r => isAlpha r || isDigit r ||
    r ∈ [ '-', '.', '_', ':', '~', '!', '$', '&', Char.ofNat 39, '(', ')', '*', '+', ',', ';',
      '=', '%', '@'])

/-- The index of the first occurrence of the bytes `pat` in `s` (Go
`strings.Index`), as the parts before it and from it on. -/
def cutAt (pat : List Char) : List Char → Option (List Char × List Char)
  | [] => if pat = [] then some ([], []) else none
  | c :: cs =>
    if pat.isPrefixOf (c :: cs) then some ([], c :: cs)
    else
      match cutAt pat cs with
      | some (a, b) => some (c :: a, b)
      | none => none

/-- Go `parseHost`. -/
def parseHost (host : List Char) : Except String (List Char) :=
  match host with
  | '[' :: _ =>
    match cutLast ']' host with
    | none => .error "missing ] in host"
    | some (inside, closing) =>
      if !validOptionalPort (closing.drop 1) then .error "invalid port after host"
      else
        match cutAt [ '%', '2', '5'] inside with
        | some (h1, zone) =>
          match unescape encoding.encodeHost h1, unescape encoding.encodeZone zone,
              unescape encoding.encodeHost closing with
          | .ok host1, .ok host2, .ok host3 => .ok (host1 ++ host2 ++ host3)
          | .error e, _, _ => .error e
          | _, .error e, _ => .error e
          | _, _, .error e => .error e
        | none => unescape encoding.encodeHost host
  | _ =>
    match cutLast ':' host with
    | some (_, colonPort) =>
      if !validOptionalPort colonPort then .error "invalid port after host"
      else unescape encoding.encodeHost host
    | none => unescape encoding.encodeHost host

/-- Go `parseAuthority`. -/
def parseAuthority (authority : List Char) : Except String (Option Userinfo × List Char) :=
  match cutLast '@' authority with
  | none =>
    match parseHost authority with
    | .ok host => .ok (none, host)
    | .error e => .error e
  | some (userinfo, atHost) =>
    match parseHost (atHost.drop 1) with
    | .error e => .error e
    | .ok host =>
      if !validUserinfo userinfo then .error "net/url: invalid userinfo"
      else if !userinfo.contains ':' then
        match unescape encoding.encodeUserPassword userinfo with
        | .ok u => .ok (some { username := String.mk u, password := "", passwordSet := false }, host)
        | .error e => .error e
      else
        match unescape encoding.encodeUserPassword (cut ':' userinfo).1,
            unescape encoding.encodeUserPassword (cut ':' userinfo).2 with
        | .ok u, .ok p =>
          .ok (some { username := String.mk u, password := String.mk p, passwordSet := true }, host)
        | .error e, _ => .error e
        | _, .error e => .error e

/-- Go `url.ParseRequestURI(rawURL)`, that is `parse(rawURL, true)`. -/
def ParseRequestURI (rawURL : String) : Except String URL :=
  if stringContainsCTLByte rawURL.data then .error "net/url: invalid control character in URL"
  else if rawURL = "" then .error "empty url"
  else if rawURL = "*" then
    .ok { Scheme := "", Opaque := "", User := none, Host := "", Path := "*", ForceQuery := false,
          RawQuery := "", OmitHost := false }
  else
    match getScheme rawURL.data with
    | .error e => .error e
    | .ok (scheme, rest) =>
      let scheme := scheme.map Char.toLower
      let forceQuery : Bool := rest.getLast? = some '?' && rest.count '?' = 1
      let rawQuery := if forceQuery then [] else (cut '?' rest).2
      let rest := if forceQuery then rest.dropLast else (cut '?' rest).1
      if rest.head? ≠ some '/' then
        if scheme ≠ [] then
          .ok { Scheme := String.mk scheme, Opaque := String.mk rest, User := none, Host := "",
                Path := "", ForceQuery := forceQuery, RawQuery := String.mk rawQuery,
                OmitHost := false }
        else .error "invalid URI for request"
      else if scheme ≠ [] && [ '/', '/'].isPrefixOf rest then
        let authority := (cut '/' (rest.drop 2)).1
        let rest := (rest.drop 2).drop authority.length
        match parseAuthority authority, unescape encoding.encodePath rest with
        | .error e, _ => .error e
        | .ok _, .error e => .error e
        | .ok (user, host), .ok path =>
          .ok { Scheme := String.mk scheme, Opaque := "", User := user, Host := String.mk host,
                Path := String.mk path, ForceQuery := forceQuery, RawQuery := String.mk rawQuery,
                OmitHost := false }
      else
        match unescape encoding.encodePath rest with
        | .error e => .error e
        | .ok path =>
          .ok { Scheme := String.mk scheme, Opaque := "", User := none, Host := "",
                Path := String.mk path, ForceQuery := forceQuery, RawQuery := String.mk rawQuery,
                OmitHost := decide (scheme ≠ []) }


end url

/-! ## gRPC: credentials, connections, metadata -/

/-- The transport credentials the wrapper can select:
`credentials.NewTLS(&tls.Config{InsecureSkipVerify: b})` and
`insecure.NewCredentials()`. -/
inductive TransportCredentials where
  | NewTLS (InsecureSkipVerify : Bool)
  | insecure
deriving DecidableEq, Repr

/-- A `*grpc.ClientConn` handle. -/
structure ClientConn where
  handle : Nat
deriving DecidableEq, Repr

/-- The generated `pb.Auth1Client` stub: it holds the connection it was bound to. -/
structure Auth1Client where
  cc : ClientConn
deriving DecidableEq, Repr

namespace metadata

/-- Go `metadata.MD`, a `map[string][]string`, as its list of entries; the nil
map is the empty list. -/
abbrev MD := List (String × List String)

/-- ASCII lower-casing, the effect of `strings.ToLower` on the keys used here. -/
def lower (s : String) : String :=
  String.mk (s.data.map Char.toLower)

/-- Go `metadata.Pairs(k, v)` for one pair: a map with the single entry
`lower k ↦ [v]`. -/
def Pairs (k v : String) : MD :=
  [(lower k, [v])]

end metadata

/-- Go `[]byte`; `none` is the nil slice. -/
abbrev Bytes := Option (List UInt8)

/-- The request message `pb.SiteJwtSecretRequest`. -/
structure SiteJwtSecretRequest where
  SiteKey : String
deriving DecidableEq, Repr

/-- The response message `pb.SiteJwtSecretResponse`. -/
structure SiteJwtSecretResponse where
  JwtSecret : Bytes
deriving DecidableEq, Repr

/-- Modelled from the spec: the generated getter of the response message (package
`rpcapi`, not among the sources); the response "carries a byte-sequence field, the
JWT signing secret", and the getter returns that field. -/
def SiteJwtSecretResponse.GetJwtSecret (r : SiteJwtSecretResponse) : Bytes :=
  r.JwtSecret

/-! ## Effects and environment -/

/-- The effects of the wrapper, as they appear in its code. -/
inductive Event where
  /-- The call `grpc.DialContext(ctx, target, grpc.WithTransportCredentials(creds))`
  under a deadline of `deadline` nanoseconds. -/
  | dial (deadline : time.Duration) (target : String) (creds : TransportCredentials)
  /-- The call `conn.Close()`. -/
  | connClose (conn : ClientConn)
  /-- A call of the remote operation `GetSiteJwtSecret` with outgoing metadata `md`
  and a deadline of `timeout` nanoseconds. -/
  | rpc (acli : Auth1Client) (md : metadata.MD) (timeout : time.Duration)
      (req : SiteJwtSecretRequest)
  /-- A line written with `log.Printf` or `log.Println`. -/
  | log (msg : String)
deriving DecidableEq, Repr

/-- Whether an effect is a connection attempt. -/
def Event.isDial : Event → Bool
  | .dial _ _ _ => true
  | _ => false

/-- Whether an effect releases a connection. -/
def Event.isConnClose : Event → Bool
  | .connClose _ => true
  | _ => false

/-- Whether an effect is a line of the log. -/
def Event.isLog : Event → Bool
  | .log _ => true
  | _ => false

/-- Whether an effect is a remote call. -/
def Event.isRpc : Event → Bool
  | .rpc _ _ _ _ => true
  | _ => false

/-- The behaviour of the libraries under the wrapper. -/
structure Env where
  /-- Go `url.ParseRequestURI`. -/
  ParseRequestURI : String → Except String url.URL
  /-- Go `grpc.DialContext`, by target and credentials. -/
  DialContext : String → TransportCredentials → Except String ClientConn
  /-- Go `(*grpc.ClientConn).Close`. -/
  connClose : ClientConn → Option String
  /-- The remote operation behind `Auth1Client.GetSiteJwtSecret`. -/
  GetSiteJwtSecret : Auth1Client → metadata.MD → time.Duration → SiteJwtSecretRequest →
    Except String SiteJwtSecretResponse

/-! ## The wrapper (`auth1wrap.go`) -/

/-- Go `type Auth1Wrapper struct`. -/
structure Auth1Wrapper where
  conn : Option ClientConn
  md : metadata.MD
  acli : Option Auth1Client
  defaultTenantKey : String
  defaultSiteKey : String
  defaultApiKey : String
  timeoutInSecs : time.Duration
  verbose : Bool
deriving DecidableEq, Repr

/-- Go `type auth1WrapperOption func(w *Auth1Wrapper)`. -/
abbrev auth1WrapperOption := Auth1Wrapper → Auth1Wrapper

/-- Go `WithVerbose()`. -/
def WithVerbose : auth1WrapperOption :=
  fun w => { w with verbose := true }

/-- Go `WithRequestTimeout(seconds)`: `time.Duration(seconds) * time.Second`, an
`int64` product; `seconds` is a Go `int`. -/
def WithRequestTimeout (seconds : Int) : auth1WrapperOption :=
  fun w => { w with timeoutInSecs := wrap64 (seconds * time.Second) }

/-- Go `(*Auth1Wrapper).SetApiKey`. -/
def Auth1Wrapper.SetApiKey (wrapper : Auth1Wrapper) (apikey : String) : Auth1Wrapper :=
  { wrapper with md := metadata.Pairs "apikey" apikey }

/-- Go `NewClient(auth1uri, opts...)`: the client (or nil), the error (or nil) and
the effects performed. -/
def NewClient (env : Env) (auth1uri : String) (opts : List auth1WrapperOption) :
    Option Auth1Wrapper × Option String × List Event :=
  match env.ParseRequestURI auth1uri with
  | .error err => (none, some ("Invalid Auth1 URI(" ++ auth1uri ++ "): " ++ err), [])
  | .ok parsed =>
    let tenantAndSite :=
      strings.Split (strings.TrimSuffix (strings.TrimPrefix parsed.Path "/") "/") '/'
    if tenantAndSite.length ≠ 2 then
      (none, some ("Invalid Auth1 URI Path(/tenant/site): " ++ parsed.Path), [])
    else
      let ret : Auth1Wrapper :=
        { conn := none
          md := []
          acli := none
          defaultTenantKey := tenantAndSite.getD 0 ""
          defaultSiteKey := tenantAndSite.getD 1 ""
          defaultApiKey := url.Userinfo.Username parsed.User
          timeoutInSecs := wrap64 (time.Second * 30)
          verbose := false }
      let creds : Option TransportCredentials :=
        if parsed.Scheme = "auth1s" then some (TransportCredentials.NewTLS false)
        else if parsed.Scheme = "auth1" then some TransportCredentials.insecure
        else none
      match creds with
      | none => (none, some ("Unsupported scheme: " ++ parsed.Scheme), [])
      | some creds =>
        let ret := if ret.defaultApiKey ≠ "" then ret.SetApiKey ret.defaultApiKey else ret
        let ret := opts.foldl (fun w opt => opt w) ret
        let dialed := Event.dial (wrap64 (5 * time.Second)) parsed.Host creds
        match env.DialContext parsed.Host creds with
        | .error err =>
          (none, some err,
            dialed ::
              (if ret.verbose then
                [Event.log ("Auth1: grpc.Dial(" ++ parsed.Host ++ ") failed: " ++ err ++ "\n")]
              else []))
        | .ok conn =>
          (some { ret with conn := some conn, acli := some (Auth1Client.mk conn) }, none, [dialed])

/-- Go `(*Auth1Wrapper).Close`: the state left behind, the error (or nil) and the
effects performed. -/
def Auth1Wrapper.Close (env : Env) (wrapper : Auth1Wrapper) :
    Auth1Wrapper × Option String × List Event :=
  match wrapper.conn with
  | some conn =>
    let err := env.connClose conn
    let wrapper := { wrapper with conn := none }
    match err with
    | some e =>
      (wrapper, some e,
        Event.connClose conn ::
          (if wrapper.verbose then
            [Event.log ("Auth1: gRPC ClientConn.Close failed: " ++ e ++ "\n")]
          else []))
    | none => (wrapper, none, [Event.connClose conn])
  | none =>
    if wrapper.verbose then (wrapper, none, [Event.log "Auth1: already closed.\n"])
    else (wrapper, none, [])

/-- Go `(*Auth1Wrapper).GetSiteJwtSecret`: the secret (or nil), the error (or nil)
and the effects performed; `none` when the call panics on a nil `acli`, which no
client returned by `NewClient` has. -/
def Auth1Wrapper.GetSiteJwtSecret (env : Env) (wrapper : Auth1Wrapper) (siteKey : String) :
    Option (Bytes × Option String × List Event) :=
  let siteKey := if siteKey = "" then wrapper.defaultSiteKey else siteKey
  match wrapper.acli with
  | none => none
  | some acli =>
    let req : SiteJwtSecretRequest := { SiteKey := siteKey }
    let called := Event.rpc acli wrapper.md wrapper.timeoutInSecs req
    match env.GetSiteJwtSecret acli wrapper.md wrapper.timeoutInSecs req with
    | .error err => some (none, some err, [called])
    | .ok r => some (r.GetJwtSecret, none, [called])

/-- The options a caller can build. The type `auth1WrapperOption` is unexported,
so a caller obtains its values from `WithVerbose()` and `WithRequestTimeout(n)`. -/
inductive OptionCall where
  | withVerbose
  | withRequestTimeout (seconds : Int)
deriving DecidableEq, Repr

/-- The option function that a call yields. -/
def OptionCall.toOption : OptionCall → auth1WrapperOption
  | .withVerbose => WithVerbose
  | .withRequestTimeout seconds => WithRequestTimeout seconds

/-- Whether a call is `WithRequestTimeout(n)` for some `n`. -/
def OptionCall.isTimeout : OptionCall → Bool
  | .withVerbose => false
  | .withRequestTimeout _ => true

/-- The client with its verbose flag cleared: what two clients share when they
differ in that flag only. -/
def Auth1Wrapper.withoutVerbose (w : Auth1Wrapper) : Auth1Wrapper :=
  { w with verbose := false }

/-- The state of `ret` in `NewClient` just before the options are applied. -/
def initialClient (parsed : url.URL) (tenant site : String) : Auth1Wrapper :=
  let ret : Auth1Wrapper :=
    { conn := none
      md := []
      acli := none
      defaultTenantKey := tenant
      defaultSiteKey := site
      defaultApiKey := url.Userinfo.Username parsed.User
      timeoutInSecs := wrap64 (time.Second * 30)
      verbose := false }
  if ret.defaultApiKey ≠ "" then ret.SetApiKey ret.defaultApiKey else ret

/-- The path of a URL as `NewClient` splits it. -/
def pathSegments (parsed : url.URL) : List String :=
  strings.Split (strings.TrimSuffix (strings.TrimPrefix parsed.Path "/") "/") '/'

/-- The credentials `NewClient` selects for a scheme, nil for another scheme. -/
def credsOfScheme (scheme : String) : Option TransportCredentials :=
  if scheme = "auth1s" then some (TransportCredentials.NewTLS false)
  else if scheme = "auth1" then some TransportCredentials.insecure
  else none

/-- The effect of the connection attempt `NewClient` makes. -/
def dialEvent (parsed : url.URL) (creds : TransportCredentials) : Event :=
  Event.dial (wrap64 (5 * time.Second)) parsed.Host creds

/-- The client `NewClient` returns after a successful dial. -/
def connected (ret : Auth1Wrapper) (conn : ClientConn) : Auth1Wrapper :=
  { ret with conn := some conn, acli := some (Auth1Client.mk conn) }

/-- The loop of `NewClient` over the options of a list of calls. -/
def applyCalls (calls : List OptionCall) (w : Auth1Wrapper) : Auth1Wrapper :=
  (calls.map OptionCall.toOption).foldl (fun w opt => opt w) w

/-- An environment whose parser is the model of Go's `url.ParseRequestURI`, whose
dial succeeds with connection `1` (a gRPC dial does not wait for the server),
whose connection closes cleanly and whose server answers every call with `reply`. -/
def goEnv (reply : Except String SiteJwtSecretResponse) : Env where
  ParseRequestURI := url.ParseRequestURI
  DialContext := fun _ _ => .ok (ClientConn.mk 1)
  connClose := fun _ => none
  GetSiteJwtSecret := fun _ _ _ _ => reply


/-! ## Lemmas on splitting and trimming -/

theorem splitList_ne_nil (sep : Char) (l : List Char) : strings.splitList sep l ≠ [] := by
  induction l with
  | nil => simp [strings.splitList]
  | cons c cs ih =>
    unfold strings.splitList
    split
    · simp
    · split <;> simp

theorem splitList_of_not_mem (sep : Char) (a : List Char) (h : sep ∉ a) :
    strings.splitList sep a = [a] := by
  induction a with
  | nil => rfl
  | cons c cs ih =>
    have hc : c ≠ sep := fun e => h (by simp [e])
    have hcs : sep ∉ cs := fun e => h (by simp [e])
    simp [strings.splitList, hc, ih hcs]

theorem splitList_append_sep (sep : Char) (a b : List Char) (h : sep ∉ a) :
    strings.splitList sep (a ++ sep :: b) = a :: strings.splitList sep b := by
  induction a with
  | nil => simp [strings.splitList]
  | cons c cs ih =>
    have hc : c ≠ sep := fun e => h (by simp [e])
    have hcs : sep ∉ cs := fun e => h (by simp [e])
    simp [strings.splitList, hc, ih hcs]

theorem splitList_no_sep (sep : Char) (l : List Char) :
    ∀ seg ∈ strings.splitList sep l, sep ∉ seg := by
  induction l with
  | nil => simp [strings.splitList]
  | cons c cs ih =>
    unfold strings.splitList
    split
    · intro seg hseg
      rcases List.mem_cons.mp hseg with rfl | h
      · simp
      · exact ih seg h
    · rename_i hc
      split
      · intro seg hseg
        simp at hseg
        subst hseg
        simpa using fun e => hc e.symm
      · rename_i seg0 segs heq
        intro seg hseg
        rcases List.mem_cons.mp hseg with rfl | h
        · have h0 := ih seg0 (by simp [heq])
          simp only [List.mem_cons, not_or]
          exact ⟨fun e => hc e.symm, h0⟩
        · exact ih seg (by simp [heq, h])

/-- Splitting gives one segment more than there are separators. -/
theorem splitList_length (sep : Char) (l : List Char) :
    (strings.splitList sep l).length = l.count sep + 1 := by
  induction l with
  | nil => rfl
  | cons c cs ih =>
    unfold strings.splitList
    by_cases hc : c = sep
    · subst hc
      simp [ih]
    · have hne : (c == sep) = false := by simpa using hc
      rw [if_neg hc, List.count_cons, hne]
      cases hsplit : strings.splitList sep cs with
      | nil => exact absurd hsplit (splitList_ne_nil sep cs)
      | cons seg segs =>
        rw [hsplit] at ih
        simpa using ih

/-- Joining the segments with the separator gives the input back. -/
theorem splitList_join (sep : Char) (l : List Char) :
    List.intercalate [sep] (strings.splitList sep l) = l := by
  induction l with
  | nil => rfl
  | cons c cs ih =>
    unfold strings.splitList
    by_cases hc : c = sep
    · subst hc
      rw [if_pos rfl]
      cases hsplit : strings.splitList c cs with
      | nil => exact absurd hsplit (splitList_ne_nil c cs)
      | cons seg segs =>
        rw [hsplit] at ih
        rw [← ih]
        simp [List.intercalate, List.intersperse]
    · rw [if_neg hc]
      cases hsplit : strings.splitList sep cs with
      | nil => exact absurd hsplit (splitList_ne_nil sep cs)
      | cons seg segs =>
        rw [hsplit] at ih
        rw [← ih]
        cases segs <;> simp [List.intercalate, List.intersperse]

theorem Split_no_sep (s : String) (sep : Char) :
    ∀ seg ∈ strings.Split s sep, sep ∉ seg.data := by
  intro seg hseg
  simp only [strings.Split, List.mem_map] at hseg
  obtain ⟨l, hl, rfl⟩ := hseg
  exact splitList_no_sep sep s.data l hl

theorem TrimPrefix_slash (rest : List Char) :
    strings.TrimPrefix (String.mk ('/' :: rest)) "/" = String.mk rest := by
  simp [strings.TrimPrefix, strings.HasPrefix]

theorem TrimSuffix_slash (l : List Char) :
    strings.TrimSuffix (String.mk (l ++ [ '/'])) "/" = String.mk l := by
  simp [strings.TrimSuffix, strings.HasSuffix]

theorem TrimSuffix_no_slash (a b : List Char) (hb : b ≠ []) (h : '/' ∉ b) :
    strings.TrimSuffix (String.mk (a ++ b)) "/" = String.mk (a ++ b) := by
  have hlast : b.getLast hb ≠ '/' := fun e => h (e ▸ List.getLast_mem hb)
  have hrev : b.reverse = b.getLast hb :: b.dropLast.reverse := by
    conv_lhs => rw [← List.dropLast_append_getLast hb]
    simp
  simp only [strings.TrimSuffix, strings.HasSuffix, List.reverse_append, hrev]
  have hpre : [ '/'].isPrefixOf (b.getLast hb :: b.dropLast.reverse ++ a.reverse) = false := by
    simpa [List.isPrefixOf] using fun e => hlast e.symm
  simp [hpre]
  intro e
  exact absurd e.symm hlast

/-- The path `/t/s`, with or without one trailing `/`, splits into `t` and `s`. -/
theorem Split_tenant_site (path t s : String)
    (hpath : path = "/" ++ t ++ "/" ++ s ∨ path = "/" ++ t ++ "/" ++ s ++ "/")
    (ht : '/' ∉ t.data) (hs : '/' ∉ s.data) (hne : s ≠ "") :
    strings.Split (strings.TrimSuffix (strings.TrimPrefix path "/") "/") '/' = [t, s] := by
  have hsd : s.data ≠ [] := fun e => hne (String.ext (by simpa using e))
  have hsplit : strings.Split (String.mk (t.data ++ '/' :: s.data)) '/' = [t, s] := by
    simp [strings.Split, splitList_append_sep _ _ _ ht, splitList_of_not_mem _ _ hs]
  rcases hpath with h | h
  · have hp : path = String.mk ('/' :: (t.data ++ '/' :: s.data)) := by
      subst h
      apply String.ext
      simp [String.data_append]
    rw [hp, TrimPrefix_slash]
    have : t.data ++ '/' :: s.data = (t.data ++ [ '/']) ++ s.data := by simp
    rw [this, TrimSuffix_no_slash _ _ hsd hs, ← this, hsplit]
  · have hp : path = String.mk ('/' :: ((t.data ++ '/' :: s.data) ++ [ '/'])) := by
      subst h
      apply String.ext
      simp [String.data_append]
    rw [hp, TrimPrefix_slash, TrimSuffix_slash, hsplit]

/-! ## Lemmas on the options -/

theorem applyCalls_cons (c : OptionCall) (calls : List OptionCall) (w : Auth1Wrapper) :
    applyCalls (c :: calls) w = applyCalls calls (c.toOption w) := by
  simp [applyCalls]

theorem applyCalls_append (pre post : List OptionCall) (w : Auth1Wrapper) :
    applyCalls (pre ++ post) w = applyCalls post (applyCalls pre w) := by
  simp [applyCalls]

/-- The options leave every field but the timeout and the verbose flag alone. -/
theorem applyCalls_fields (calls : List OptionCall) (w : Auth1Wrapper) :
    (applyCalls calls w).conn = w.conn ∧ (applyCalls calls w).md = w.md ∧
    (applyCalls calls w).acli = w.acli ∧
    (applyCalls calls w).defaultTenantKey = w.defaultTenantKey ∧
    (applyCalls calls w).defaultSiteKey = w.defaultSiteKey ∧
    (applyCalls calls w).defaultApiKey = w.defaultApiKey := by
  induction calls generalizing w with
  | nil => simp [applyCalls]
  | cons c calls ih =>
    rw [applyCalls_cons]
    cases c <;> simpa [OptionCall.toOption, WithVerbose, WithRequestTimeout] using ih _

theorem applyCalls_timeout_none (calls : List OptionCall) (w : Auth1Wrapper)
    (h : ∀ c ∈ calls, c.isTimeout = false) :
    (applyCalls calls w).timeoutInSecs = w.timeoutInSecs := by
  induction calls generalizing w with
  | nil => simp [applyCalls]
  | cons c calls ih =>
    rw [applyCalls_cons, ih _ (fun d hd => h d (List.mem_cons_of_mem _ hd))]
    cases c with
    | withVerbose => rfl
    | withRequestTimeout n => simpa [OptionCall.isTimeout] using h _ (List.mem_cons_self _ _)

theorem applyCalls_timeout_last (pre post : List OptionCall) (n : Int) (w : Auth1Wrapper)
    (h : ∀ c ∈ post, c.isTimeout = false) :
    (applyCalls (pre ++ OptionCall.withRequestTimeout n :: post) w).timeoutInSecs =
      wrap64 (n * time.Second) := by
  rw [applyCalls_append, applyCalls_cons, applyCalls_timeout_none _ _ h]
  rfl

theorem applyCalls_withoutVerbose (calls : List OptionCall) (w1 w2 : Auth1Wrapper)
    (h : w1.withoutVerbose = w2.withoutVerbose) :
    (applyCalls calls w1).withoutVerbose = (applyCalls calls w2).withoutVerbose := by
  induction calls generalizing w1 w2 with
  | nil => simpa [applyCalls] using h
  | cons c calls ih =>
    rw [applyCalls_cons, applyCalls_cons]
    apply ih
    cases w1
    cases w2
    cases c <;>
      simp_all [OptionCall.toOption, WithVerbose, WithRequestTimeout, Auth1Wrapper.withoutVerbose]

/-- In the signed 64-bit range a value is its own reduction. -/
theorem wrap64_of_range (x : Int) (h1 : -9223372036854775808 ≤ x) (h2 : x ≤ 9223372036854775807) :
    wrap64 x = x := by
  unfold wrap64
  norm_num
  omega

/-! ## Lemmas on `NewClient` -/

theorem NewClient_parse_error (env : Env) (auth1uri : String) (opts : List auth1WrapperOption)
    (err : String) (hp : env.ParseRequestURI auth1uri = .error err) :
    NewClient env auth1uri opts =
      (none, some ("Invalid Auth1 URI(" ++ auth1uri ++ "): " ++ err), []) := by
  simp [NewClient, hp]

theorem NewClient_bad_path (env : Env) (auth1uri : String) (opts : List auth1WrapperOption)
    (parsed : url.URL) (hp : env.ParseRequestURI auth1uri = .ok parsed)
    (hlen : (pathSegments parsed).length ≠ 2) :
    NewClient env auth1uri opts =
      (none, some ("Invalid Auth1 URI Path(/tenant/site): " ++ parsed.Path), []) := by
  simp only [pathSegments] at hlen
  simp [NewClient, hp, hlen]

theorem NewClient_bad_scheme (env : Env) (auth1uri : String) (opts : List auth1WrapperOption)
    (parsed : url.URL) (hp : env.ParseRequestURI auth1uri = .ok parsed)
    (hlen : (pathSegments parsed).length = 2)
    (hs : credsOfScheme parsed.Scheme = none) :
    NewClient env auth1uri opts = (none, some ("Unsupported scheme: " ++ parsed.Scheme), []) := by
  simp only [pathSegments] at hlen
  simp only [credsOfScheme] at hs
  simp only [NewClient, hp, hlen]
  split at hs
  · simp at hs
  · split at hs
    · simp at hs
    · rename_i h1 h2
      simp [h1, h2]

theorem NewClient_dial_error (env : Env) (auth1uri : String) (opts : List auth1WrapperOption)
    (parsed : url.URL) (tenant site : String) (creds : TransportCredentials) (err : String)
    (hp : env.ParseRequestURI auth1uri = .ok parsed)
    (hseg : pathSegments parsed = [tenant, site])
    (hs : credsOfScheme parsed.Scheme = some creds)
    (hd : env.DialContext parsed.Host creds = .error err) :
    NewClient env auth1uri opts =
      (none, some err,
        dialEvent parsed creds ::
          (if (opts.foldl (fun w opt => opt w) (initialClient parsed tenant site)).verbose then
            [Event.log ("Auth1: grpc.Dial(" ++ parsed.Host ++ ") failed: " ++ err ++ "\n")]
          else [])) := by
  simp only [pathSegments] at hseg
  simp only [credsOfScheme] at hs
  simp only [NewClient, hp, hseg, initialClient, dialEvent]
  split at hs
  · rename_i h1
    simp only [Option.some.injEq] at hs
    subst hs
    simp [h1, hd]
  · split at hs
    · rename_i h1 h2
      simp only [Option.some.injEq] at hs
      subst hs
      simp [h1, h2, hd]
    · simp at hs

theorem NewClient_ok (env : Env) (auth1uri : String) (opts : List auth1WrapperOption)
    (parsed : url.URL) (tenant site : String) (creds : TransportCredentials) (conn : ClientConn)
    (hp : env.ParseRequestURI auth1uri = .ok parsed)
    (hseg : pathSegments parsed = [tenant, site])
    (hs : credsOfScheme parsed.Scheme = some creds)
    (hd : env.DialContext parsed.Host creds = .ok conn) :
    NewClient env auth1uri opts =
      (some (connected (opts.foldl (fun w opt => opt w) (initialClient parsed tenant site)) conn),
        none, [dialEvent parsed creds]) := by
  simp only [pathSegments] at hseg
  simp only [credsOfScheme] at hs
  simp only [NewClient, hp, hseg, initialClient, dialEvent, connected]
  split at hs
  · rename_i h1
    simp only [Option.some.injEq] at hs
    subst hs
    simp [h1, hd]
  · split at hs
    · rename_i h1 h2
      simp only [Option.some.injEq] at hs
      subst hs
      simp [h1, h2, hd]
    · simp at hs

theorem length_two_cases (l : List String) (h : l.length = 2) : ∃ a b, l = [a, b] := by
  match l, h with
  | [a, b], _ => exact ⟨a, b, rfl⟩

/-- Every run of `NewClient` is one of the five above. -/
theorem NewClient_cases (env : Env) (auth1uri : String) :
    (∃ err, env.ParseRequestURI auth1uri = .error err) ∨
    (∃ parsed, env.ParseRequestURI auth1uri = .ok parsed ∧ (pathSegments parsed).length ≠ 2) ∨
    (∃ parsed, env.ParseRequestURI auth1uri = .ok parsed ∧ (pathSegments parsed).length = 2 ∧
      credsOfScheme parsed.Scheme = none) ∨
    (∃ parsed tenant site creds err, env.ParseRequestURI auth1uri = .ok parsed ∧
      pathSegments parsed = [tenant, site] ∧ credsOfScheme parsed.Scheme = some creds ∧
      env.DialContext parsed.Host creds = .error err) ∨
    (∃ parsed tenant site creds conn, env.ParseRequestURI auth1uri = .ok parsed ∧
      pathSegments parsed = [tenant, site] ∧ credsOfScheme parsed.Scheme = some creds ∧
      env.DialContext parsed.Host creds = .ok conn) := by
  cases hp : env.ParseRequestURI auth1uri with
  | error err => exact Or.inl ⟨err, rfl⟩
  | ok parsed =>
    right
    by_cases hlen : (pathSegments parsed).length = 2
    · right
      obtain ⟨tenant, site, hseg⟩ := length_two_cases _ hlen
      cases hs : credsOfScheme parsed.Scheme with
      | none => exact Or.inl ⟨parsed, rfl, hlen, hs⟩
      | some creds =>
        right
        cases hd : env.DialContext parsed.Host creds with
        | error err => exact Or.inl ⟨parsed, tenant, site, creds, err, rfl, hseg, hs, hd⟩
        | ok conn => exact Or.inr ⟨parsed, tenant, site, creds, conn, rfl, hseg, hs, hd⟩
    · exact Or.inl ⟨parsed, rfl, hlen⟩

/-- A client is returned only by the last case. -/
theorem NewClient_some (env : Env) (auth1uri : String) (opts : List auth1WrapperOption)
    (w : Auth1Wrapper) (h : (NewClient env auth1uri opts).1 = some w) :
    ∃ parsed tenant site creds conn, env.ParseRequestURI auth1uri = .ok parsed ∧
      pathSegments parsed = [tenant, site] ∧ credsOfScheme parsed.Scheme = some creds ∧
      env.DialContext parsed.Host creds = .ok conn ∧
      NewClient env auth1uri opts =
        (some (connected (opts.foldl (fun w opt => opt w) (initialClient parsed tenant site)) conn),
          none, [dialEvent parsed creds]) ∧
      w = connected (opts.foldl (fun w opt => opt w) (initialClient parsed tenant site)) conn := by
  rcases NewClient_cases env auth1uri with ⟨err, hp⟩ | ⟨parsed, hp, hlen⟩ |
    ⟨parsed, hp, hlen, hs⟩ | ⟨parsed, tenant, site, creds, err, hp, hseg, hs, hd⟩ |
    ⟨parsed, tenant, site, creds, conn, hp, hseg, hs, hd⟩
  · rw [NewClient_parse_error env auth1uri opts err hp] at h
    simp at h
  · rw [NewClient_bad_path env auth1uri opts parsed hp hlen] at h
    simp at h
  · rw [NewClient_bad_scheme env auth1uri opts parsed hp hlen hs] at h
    simp at h
  · rw [NewClient_dial_error env auth1uri opts parsed tenant site creds err hp hseg hs hd] at h
    simp at h
  · have hok := NewClient_ok env auth1uri opts parsed tenant site creds conn hp hseg hs hd
    rw [hok] at h
    simp only [Option.some.injEq] at h
    exact ⟨parsed, tenant, site, creds, conn, hp, hseg, hs, hd, hok, h.symm⟩

/-- A client that `NewClient` returns holds the dialed connection and a stub bound
to it, whatever the options are. -/
theorem NewClient_acli (env : Env) (auth1uri : String) (opts : List auth1WrapperOption)
    (w : Auth1Wrapper) (h : (NewClient env auth1uri opts).1 = some w) :
    ∃ conn, w.conn = some conn ∧ w.acli = some (Auth1Client.mk conn) := by
  obtain ⟨parsed, tenant, site, creds, conn, -, -, -, -, -, rfl⟩ :=
    NewClient_some env auth1uri opts w h
  exact ⟨conn, rfl, rfl⟩

/-! ## Construction: rejected URIs -/

/-- C1: when the scheme of the parsed URI is neither `auth1` nor `auth1s` (or the
URI does not parse at all), `NewClient` returns a nil client and a non-nil error,
and none of its effects is a connection attempt; this for every parser, every
transport and every list of options. -/
theorem NewClient_rejects_other_scheme (env : Env) (auth1uri : String)
    (opts : List auth1WrapperOption)
    (h : ∀ parsed, env.ParseRequestURI auth1uri = .ok parsed →
      parsed.Scheme ≠ "auth1" ∧ parsed.Scheme ≠ "auth1s") :
    (NewClient env auth1uri opts).1 = none ∧ (NewClient env auth1uri opts).2.1 ≠ none ∧
      ∀ e ∈ (NewClient env auth1uri opts).2.2, e.isDial = false := by
  have hno : ∀ parsed creds, env.ParseRequestURI auth1uri = .ok parsed →
      credsOfScheme parsed.Scheme = some creds → False := by
    intro parsed creds hp hs
    obtain ⟨h1, h2⟩ := h parsed hp
    simp [credsOfScheme, h1, h2] at hs
  rcases NewClient_cases env auth1uri with ⟨err, hp⟩ | ⟨parsed, hp, hlen⟩ |
    ⟨parsed, hp, hlen, hs⟩ | ⟨parsed, tenant, site, creds, err, hp, hseg, hs, hd⟩ |
    ⟨parsed, tenant, site, creds, conn, hp, hseg, hs, hd⟩
  · simp [NewClient_parse_error env auth1uri opts err hp]
  · simp [NewClient_bad_path env auth1uri opts parsed hp hlen]
  · simp [NewClient_bad_scheme env auth1uri opts parsed hp hlen hs]
  · exact (hno parsed creds hp hs).elim
  · exact (hno parsed creds hp hs).elim

/-- The URIs of `TestInvalidUri` without a recognized scheme, and one whose path
is well formed, are rejected without a connection attempt. -/
theorem NewClient_rejects_other_scheme_witness :
    ((∀ parsed, (goEnv (.error "unavailable")).ParseRequestURI "localhost:50051" = .ok parsed →
        parsed.Scheme ≠ "auth1" ∧ parsed.Scheme ≠ "auth1s") ∧
      (NewClient (goEnv (.error "unavailable")) "localhost:50051" [WithVerbose]).1 = none ∧
      (NewClient (goEnv (.error "unavailable")) "localhost:50051" [WithVerbose]).2.1 ≠ none ∧
      ∀ e ∈ (NewClient (goEnv (.error "unavailable")) "localhost:50051" [WithVerbose]).2.2,
        e.isDial = false) ∧
    ((∀ parsed, (goEnv (.error "unavailable")).ParseRequestURI "http://localhost:50051" = .ok parsed →
        parsed.Scheme ≠ "auth1" ∧ parsed.Scheme ≠ "auth1s") ∧
      (NewClient (goEnv (.error "unavailable")) "http://localhost:50051" [WithVerbose]).1 = none ∧
      (NewClient (goEnv (.error "unavailable")) "http://localhost:50051" [WithVerbose]).2.1 ≠ none ∧
      ∀ e ∈ (NewClient (goEnv (.error "unavailable")) "http://localhost:50051" [WithVerbose]).2.2,
        e.isDial = false) ∧
    ((∀ parsed, (goEnv (.error "unavailable")).ParseRequestURI "https://localhost:50051" = .ok parsed →
        parsed.Scheme ≠ "auth1" ∧ parsed.Scheme ≠ "auth1s") ∧
      (NewClient (goEnv (.error "unavailable")) "https://localhost:50051" [WithVerbose]).1 = none ∧
      (NewClient (goEnv (.error "unavailable")) "https://localhost:50051" [WithVerbose]).2.1 ≠ none ∧
      ∀ e ∈ (NewClient (goEnv (.error "unavailable")) "https://localhost:50051" [WithVerbose]).2.2,
        e.isDial = false) ∧
    ((∀ parsed, (goEnv (.error "unavailable")).ParseRequestURI "auth1x://localhost:443" = .ok parsed →
        parsed.Scheme ≠ "auth1" ∧ parsed.Scheme ≠ "auth1s") ∧
      (NewClient (goEnv (.error "unavailable")) "auth1x://localhost:443" [WithVerbose]).1 = none ∧
      (NewClient (goEnv (.error "unavailable")) "auth1x://localhost:443" [WithVerbose]).2.1 ≠ none ∧
      ∀ e ∈ (NewClient (goEnv (.error "unavailable")) "auth1x://localhost:443" [WithVerbose]).2.2,
        e.isDial = false) ∧
    ((∀ parsed, (goEnv (.error "unavailable")).ParseRequestURI "auth1x://localhost:443/tenant/site" = .ok parsed →
        parsed.Scheme ≠ "auth1" ∧ parsed.Scheme ≠ "auth1s") ∧
      (NewClient (goEnv (.error "unavailable")) "auth1x://localhost:443/tenant/site" [WithVerbose]).1 = none ∧
      (NewClient (goEnv (.error "unavailable")) "auth1x://localhost:443/tenant/site" [WithVerbose]).2.1 ≠ none ∧
      ∀ e ∈ (NewClient (goEnv (.error "unavailable")) "auth1x://localhost:443/tenant/site" [WithVerbose]).2.2,
        e.isDial = false) :=
  ⟨⟨fun parsed hp => by cases hp; exact ⟨by decide, by decide⟩,
      NewClient_rejects_other_scheme (goEnv (.error "unavailable")) "localhost:50051" [WithVerbose]
        (fun parsed hp => by cases hp; exact ⟨by decide, by decide⟩)⟩,
    ⟨fun parsed hp => by cases hp; exact ⟨by decide, by decide⟩,
      NewClient_rejects_other_scheme (goEnv (.error "unavailable")) "http://localhost:50051" [WithVerbose]
        (fun parsed hp => by cases hp; exact ⟨by decide, by decide⟩)⟩,
    ⟨fun parsed hp => by cases hp; exact ⟨by decide, by decide⟩,
      NewClient_rejects_other_scheme (goEnv (.error "unavailable")) "https://localhost:50051" [WithVerbose]
        (fun parsed hp => by cases hp; exact ⟨by decide, by decide⟩)⟩,
    ⟨fun parsed hp => by cases hp; exact ⟨by decide, by decide⟩,
      NewClient_rejects_other_scheme (goEnv (.error "unavailable")) "auth1x://localhost:443" [WithVerbose]
        (fun parsed hp => by cases hp; exact ⟨by decide, by decide⟩)⟩,
    ⟨fun parsed hp => by cases hp; exact ⟨by decide, by decide⟩,
      NewClient_rejects_other_scheme (goEnv (.error "unavailable")) "auth1x://localhost:443/tenant/site" [WithVerbose]
        (fun parsed hp => by cases hp; exact ⟨by decide, by decide⟩)⟩⟩

/-- C2: when the scheme is `auth1` or `auth1s` and the path, after one leading and
one trailing `/` are removed, does not split on `/` into exactly two segments,
`NewClient` returns a nil client and a non-nil error, for every list of options. -/
theorem NewClient_rejects_bad_path (env : Env) (auth1uri : String)
    (opts : List auth1WrapperOption) (parsed : url.URL)
    (hp : env.ParseRequestURI auth1uri = .ok parsed)
    (_hs : parsed.Scheme = "auth1" ∨ parsed.Scheme = "auth1s")
    (hseg : (strings.Split
      (strings.TrimSuffix (strings.TrimPrefix parsed.Path "/") "/") '/').length ≠ 2) :
    (NewClient env auth1uri opts).1 = none ∧ (NewClient env auth1uri opts).2.1 ≠ none := by
  simp [NewClient_bad_path env auth1uri opts parsed hp hseg]

/-- An empty path, a path of one segment and a path of three segments are
rejected. -/
theorem NewClient_rejects_bad_path_witness :
    (∃ parsed, (goEnv (.error "unavailable")).ParseRequestURI "auth1://localhost:50051" = .ok parsed ∧
        (parsed.Scheme = "auth1" ∨ parsed.Scheme = "auth1s") ∧
        (strings.Split
          (strings.TrimSuffix (strings.TrimPrefix parsed.Path "/") "/") '/').length ≠ 2 ∧
        (NewClient (goEnv (.error "unavailable")) "auth1://localhost:50051" []).1 = none ∧
        (NewClient (goEnv (.error "unavailable")) "auth1://localhost:50051" []).2.1 ≠ none) ∧
    (∃ parsed, (goEnv (.error "unavailable")).ParseRequestURI "auth1s://localhost:443/tenant" = .ok parsed ∧
        (parsed.Scheme = "auth1" ∨ parsed.Scheme = "auth1s") ∧
        (strings.Split
          (strings.TrimSuffix (strings.TrimPrefix parsed.Path "/") "/") '/').length ≠ 2 ∧
        (NewClient (goEnv (.error "unavailable")) "auth1s://localhost:443/tenant" []).1 = none ∧
        (NewClient (goEnv (.error "unavailable")) "auth1s://localhost:443/tenant" []).2.1 ≠ none) ∧
    (∃ parsed, (goEnv (.error "unavailable")).ParseRequestURI "auth1://localhost:50051/tenant/site/more" = .ok parsed ∧
        (parsed.Scheme = "auth1" ∨ parsed.Scheme = "auth1s") ∧
        (strings.Split
          (strings.TrimSuffix (strings.TrimPrefix parsed.Path "/") "/") '/').length ≠ 2 ∧
        (NewClient (goEnv (.error "unavailable")) "auth1://localhost:50051/tenant/site/more" []).1 = none ∧
        (NewClient (goEnv (.error "unavailable")) "auth1://localhost:50051/tenant/site/more" []).2.1 ≠ none) :=
  ⟨⟨_, rfl, by decide, by decide,
      NewClient_rejects_bad_path (goEnv (.error "unavailable")) "auth1://localhost:50051" [] _ rfl
        (by decide) (by decide)⟩,
    ⟨_, rfl, by decide, by decide,
      NewClient_rejects_bad_path (goEnv (.error "unavailable")) "auth1s://localhost:443/tenant" [] _ rfl
        (by decide) (by decide)⟩,
    ⟨_, rfl, by decide, by decide,
      NewClient_rejects_bad_path (goEnv (.error "unavailable")) "auth1://localhost:50051/tenant/site/more" [] _ rfl
        (by decide) (by decide)⟩⟩

/-! ## Construction: accepted URIs -/

/-- C3: for a URI of scheme `auth1` or `auth1s` whose path is `/t/s`, with or
without one trailing `/`, where `t` and `s` are non-empty and free of `/`, and
for every list of options: if the dial reports no error, `NewClient` returns a nil
error and a client whose default tenant is `t` and whose default site is `s`. -/
theorem NewClient_tenant_site (env : Env) (auth1uri : String) (calls : List OptionCall)
    (parsed : url.URL) (t s : String) (conn : ClientConn)
    (hp : env.ParseRequestURI auth1uri = .ok parsed)
    (hs : parsed.Scheme = "auth1" ∨ parsed.Scheme = "auth1s")
    (hpath : parsed.Path = "/" ++ t ++ "/" ++ s ∨ parsed.Path = "/" ++ t ++ "/" ++ s ++ "/")
    (ht : t ≠ "" ∧ '/' ∉ t.data) (hsite : s ≠ "" ∧ '/' ∉ s.data)
    (hd : env.DialContext parsed.Host
      (if parsed.Scheme = "auth1s" then TransportCredentials.NewTLS false
        else TransportCredentials.insecure) = .ok conn) :
    ∃ w, (NewClient env auth1uri (calls.map OptionCall.toOption)).1 = some w ∧
      (NewClient env auth1uri (calls.map OptionCall.toOption)).2.1 = none ∧
      w.defaultTenantKey = t ∧ w.defaultSiteKey = s := by
  have hseg : pathSegments parsed = [t, s] :=
    Split_tenant_site parsed.Path t s hpath ht.2 hsite.2 hsite.1
  have hcreds : credsOfScheme parsed.Scheme =
      some (if parsed.Scheme = "auth1s" then TransportCredentials.NewTLS false
        else TransportCredentials.insecure) := by
    rcases hs with h | h <;> simp [credsOfScheme, h]
  have hok := NewClient_ok env auth1uri (calls.map OptionCall.toOption) parsed t s _ conn
    hp hseg hcreds hd
  have hf := applyCalls_fields calls (initialClient parsed t s)
  refine ⟨_, by rw [hok], by rw [hok], ?_, ?_⟩
  · show (applyCalls calls (initialClient parsed t s)).defaultTenantKey = t
    rw [hf.2.2.2.1]
    simp only [initialClient]
    split <;> rfl
  · show (applyCalls calls (initialClient parsed t s)).defaultSiteKey = s
    rw [hf.2.2.2.2.1]
    simp only [initialClient]
    split <;> rfl

/-- The accepted URI of `TestInvalidUri`: `auth1s://localhost:443/tenant/site`
gives tenant `tenant` and site `site`. -/
theorem NewClient_tenant_site_witness :
    ∃ w, (NewClient (goEnv (.error "unavailable")) "auth1s://localhost:443/tenant/site"
        ([OptionCall.withVerbose].map OptionCall.toOption)).1 = some w ∧
      (NewClient (goEnv (.error "unavailable")) "auth1s://localhost:443/tenant/site"
        ([OptionCall.withVerbose].map OptionCall.toOption)).2.1 = none ∧
      w.defaultTenantKey = "tenant" ∧ w.defaultSiteKey = "site" :=
  NewClient_tenant_site (goEnv (.error "unavailable")) "auth1s://localhost:443/tenant/site"
    [OptionCall.withVerbose]
    { Scheme := "auth1s", Opaque := "", User := none, Host := "localhost:443",
      Path := "/tenant/site", ForceQuery := false, RawQuery := "", OmitHost := false }
    "tenant" "site" (ClientConn.mk 1) rfl (by decide) (by decide) (by decide) (by decide) rfl

/-- C4, as stated, fails: the paths `//site` and `/tenant//` pass the check of
`NewClient`, which returns no error and a client whose tenant, respectively site,
is the empty string. -/
theorem NewClient_empty_segment_accepted :
    ((NewClient (goEnv (.error "unavailable")) "auth1://host//site" []).2.1 = none ∧
      (NewClient (goEnv (.error "unavailable")) "auth1://host//site" []).1.map
        (fun w => (w.defaultTenantKey, w.defaultSiteKey)) = some ("", "site")) ∧
    ((NewClient (goEnv (.error "unavailable")) "auth1://host/tenant//" []).2.1 = none ∧
      (NewClient (goEnv (.error "unavailable")) "auth1://host/tenant//" []).1.map
        (fun w => (w.defaultTenantKey, w.defaultSiteKey)) = some ("tenant", "")) := by
  decide

/-- C4, amended: `NewClient` fails with an error for every URI whose path, after
one leading and one trailing `/` are removed, does not split on `/` into exactly
two segments; and every client it returns comes without error and has as default
tenant and default site exactly those two segments, neither of which contains a
`/` (either may be empty). -/
theorem NewClient_two_segments (env : Env) (auth1uri : String) (calls : List OptionCall) :
    (∀ parsed, env.ParseRequestURI auth1uri = .ok parsed →
      (strings.Split
        (strings.TrimSuffix (strings.TrimPrefix parsed.Path "/") "/") '/').length ≠ 2 →
      (NewClient env auth1uri (calls.map OptionCall.toOption)).1 = none ∧
      (NewClient env auth1uri (calls.map OptionCall.toOption)).2.1 ≠ none) ∧
    (∀ w, (NewClient env auth1uri (calls.map OptionCall.toOption)).1 = some w →
      (NewClient env auth1uri (calls.map OptionCall.toOption)).2.1 = none ∧
      ∃ parsed, env.ParseRequestURI auth1uri = .ok parsed ∧
        strings.Split (strings.TrimSuffix (strings.TrimPrefix parsed.Path "/") "/") '/' =
          [w.defaultTenantKey, w.defaultSiteKey] ∧
        '/' ∉ w.defaultTenantKey.data ∧ '/' ∉ w.defaultSiteKey.data) := by
  constructor
  · intro parsed hp hlen
    simp [NewClient_bad_path env auth1uri _ parsed hp hlen]
  · intro w hw
    obtain ⟨parsed, tenant, site, creds, conn, hp, hseg, hs, hd, hok, rfl⟩ :=
      NewClient_some env auth1uri _ w hw
    have hf := applyCalls_fields calls (initialClient parsed tenant site)
    have ht : (connected ((calls.map OptionCall.toOption).foldl (fun w opt => opt w)
        (initialClient parsed tenant site)) conn).defaultTenantKey = tenant := by
      show (applyCalls calls (initialClient parsed tenant site)).defaultTenantKey = tenant
      rw [hf.2.2.2.1]
      simp only [initialClient]
      split <;> rfl
    have hsi : (connected ((calls.map OptionCall.toOption).foldl (fun w opt => opt w)
        (initialClient parsed tenant site)) conn).defaultSiteKey = site := by
      show (applyCalls calls (initialClient parsed tenant site)).defaultSiteKey = site
      rw [hf.2.2.2.2.1]
      simp only [initialClient]
      split <;> rfl
    have hno := Split_no_sep (strings.TrimSuffix (strings.TrimPrefix parsed.Path "/") "/") '/'
    rw [show strings.Split (strings.TrimSuffix (strings.TrimPrefix parsed.Path "/") "/") '/' =
      [tenant, site] from hseg] at hno
    refine ⟨by rw [hok], parsed, hp, ?_, ?_, ?_⟩
    · rw [ht, hsi]
      exact hseg
    · rw [ht]
      exact hno tenant (by simp)
    · rw [hsi]
      exact hno site (by simp)

/-- The amended C4 at `auth1://host//site` (accepted, tenant empty) and at
`auth1s://localhost:443/tenant` (rejected). -/
theorem NewClient_two_segments_witness :
    (∃ w, (NewClient (goEnv (.error "unavailable")) "auth1://host//site"
        ([OptionCall.withVerbose].map OptionCall.toOption)).1 = some w ∧
      (NewClient (goEnv (.error "unavailable")) "auth1://host//site"
        ([OptionCall.withVerbose].map OptionCall.toOption)).2.1 = none ∧
      ∃ parsed, (goEnv (.error "unavailable")).ParseRequestURI "auth1://host//site" = .ok parsed ∧
        strings.Split (strings.TrimSuffix (strings.TrimPrefix parsed.Path "/") "/") '/' =
          [w.defaultTenantKey, w.defaultSiteKey] ∧
        '/' ∉ w.defaultTenantKey.data ∧ '/' ∉ w.defaultSiteKey.data) ∧
    ((NewClient (goEnv (.error "unavailable")) "auth1s://localhost:443/tenant"
        ([OptionCall.withVerbose].map OptionCall.toOption)).1 = none ∧
      (NewClient (goEnv (.error "unavailable")) "auth1s://localhost:443/tenant"
        ([OptionCall.withVerbose].map OptionCall.toOption)).2.1 ≠ none) :=
  ⟨⟨_, rfl, (NewClient_two_segments (goEnv (.error "unavailable")) "auth1://host//site"
      [OptionCall.withVerbose]).2 _ rfl⟩,
    (NewClient_two_segments (goEnv (.error "unavailable")) "auth1s://localhost:443/tenant"
      [OptionCall.withVerbose]).1 _ rfl (by decide)⟩

/-! ## Close -/

theorem Close_conn (env : Env) (w : Auth1Wrapper) : (w.Close env).1.conn = none := by
  unfold Auth1Wrapper.Close
  cases hc : w.conn with
  | some conn => cases he : env.connClose conn <;> simp [he]
  | none => by_cases hv : w.verbose <;> simp [hv, hc]

theorem Close_of_closed (env : Env) (w : Auth1Wrapper) (h : w.conn = none) :
    (w.Close env).1 = w ∧ (w.Close env).2.1 = none ∧
      ∀ e ∈ (w.Close env).2.2, e.isConnClose = false := by
  unfold Auth1Wrapper.Close
  rw [h]
  by_cases hv : w.verbose <;> simp [hv, Event.isConnClose]

/-- C5: `Close` is idempotent. Whatever releasing the connection answers, the
client is closed after one call (its connection handle is nil); every later call,
whatever the transport would answer then, returns no error, releases nothing and
leaves the state as it is. -/
theorem Close_idempotent (env later : Env) (w : Auth1Wrapper) :
    (w.Close env).1.conn = none ∧
    ∀ n : Nat,
      ((fun s => (Auth1Wrapper.Close later s).1)^[n] (w.Close env).1) = (w.Close env).1 ∧
      (Auth1Wrapper.Close later
        ((fun s => (Auth1Wrapper.Close later s).1)^[n] (w.Close env).1)).1 = (w.Close env).1 ∧
      (Auth1Wrapper.Close later
        ((fun s => (Auth1Wrapper.Close later s).1)^[n] (w.Close env).1)).2.1 = none ∧
      ∀ e ∈ (Auth1Wrapper.Close later
        ((fun s => (Auth1Wrapper.Close later s).1)^[n] (w.Close env).1)).2.2,
        e.isConnClose = false := by
  have hc := Close_conn env w
  refine ⟨hc, fun n => ?_⟩
  have hn : ((fun s => (Auth1Wrapper.Close later s).1)^[n] (w.Close env).1) = (w.Close env).1 := by
    induction n with
    | zero => rfl
    | succ k ih =>
      rw [Function.iterate_succ_apply, (Close_of_closed later _ hc).1]
      exact ih
  rw [hn]
  exact ⟨rfl, Close_of_closed later _ hc⟩

/-! ## SetApiKey -/

/-- C7: for every client and every key, `SetApiKey` leaves as outgoing metadata
exactly one entry, `apikey` with the single value `key`, whatever the metadata
was; a second call replaces the first; the other fields are unchanged. -/
theorem SetApiKey_replaces_metadata (w : Auth1Wrapper) (key other : String) :
    (w.SetApiKey key).md = [("apikey", [key])] ∧
    (w.SetApiKey other).SetApiKey key = w.SetApiKey key ∧
    ((w.SetApiKey other).SetApiKey key).md = [("apikey", [key])] ∧
    (w.SetApiKey key).conn = w.conn ∧ (w.SetApiKey key).acli = w.acli ∧
    (w.SetApiKey key).defaultTenantKey = w.defaultTenantKey ∧
    (w.SetApiKey key).defaultSiteKey = w.defaultSiteKey ∧
    (w.SetApiKey key).defaultApiKey = w.defaultApiKey ∧
    (w.SetApiKey key).timeoutInSecs = w.timeoutInSecs ∧
    (w.SetApiKey key).verbose = w.verbose :=
  ⟨rfl, rfl, rfl, rfl, rfl, rfl, rfl, rfl, rfl, rfl⟩

/-! ## GetSiteJwtSecret -/

theorem GetSiteJwtSecret_eq (env : Env) (w : Auth1Wrapper) (acli : Auth1Client)
    (k : String) (h : w.acli = some acli) :
    w.GetSiteJwtSecret env k =
      some
        (match env.GetSiteJwtSecret acli w.md w.timeoutInSecs
            { SiteKey := if k = "" then w.defaultSiteKey else k } with
          | .ok r => (r.JwtSecret, none,
              [Event.rpc acli w.md w.timeoutInSecs
                { SiteKey := if k = "" then w.defaultSiteKey else k }])
          | .error e => (none, some e,
              [Event.rpc acli w.md w.timeoutInSecs
                { SiteKey := if k = "" then w.defaultSiteKey else k }])) := by
  unfold Auth1Wrapper.GetSiteJwtSecret
  rw [h]
  cases hr : env.GetSiteJwtSecret acli w.md w.timeoutInSecs
      { SiteKey := if k = "" then w.defaultSiteKey else k } <;>
    simp [hr, SiteJwtSecretResponse.GetJwtSecret]

/-- C6: for a client with a bound stub (every client `NewClient` returns) and every
site argument `k`, `GetSiteJwtSecret` makes exactly one remote call, with the site
of the client when `k` is empty and `k` otherwise, the current metadata and the
configured timeout; a response gives its secret and a nil error, a failure gives
a nil secret and the same error. -/
theorem GetSiteJwtSecret_one_call (env : Env) (w : Auth1Wrapper) (acli : Auth1Client)
    (k : String) (h : w.acli = some acli) :
    ∃ secret err,
      w.GetSiteJwtSecret env k =
        some (secret, err,
          [Event.rpc acli w.md w.timeoutInSecs
            { SiteKey := if k = "" then w.defaultSiteKey else k }]) ∧
      (∀ r, env.GetSiteJwtSecret acli w.md w.timeoutInSecs
          { SiteKey := if k = "" then w.defaultSiteKey else k } = .ok r →
        secret = r.JwtSecret ∧ err = none) ∧
      (∀ e, env.GetSiteJwtSecret acli w.md w.timeoutInSecs
          { SiteKey := if k = "" then w.defaultSiteKey else k } = .error e →
        secret = none ∧ err = some e) := by
  rw [GetSiteJwtSecret_eq env w acli k h]
  cases hr : env.GetSiteJwtSecret acli w.md w.timeoutInSecs
      { SiteKey := if k = "" then w.defaultSiteKey else k } with
  | error e => exact ⟨none, some e, rfl, by simp, by simp⟩
  | ok r => exact ⟨r.JwtSecret, none, rfl, by simp, by simp⟩

/-- The call of `TestGetJwtSecret` with an empty site argument: one remote call,
for the default site `world`, under the API key of the URI and the default
timeout; its answer is handed back. -/
theorem GetSiteJwtSecret_one_call_witness :
    ∃ w, (NewClient (goEnv (.ok { JwtSecret := some [1, 2, 3] }))
        "auth1://key@localhost:50051/hello/world" []).1 = some w ∧
      w.acli = some (Auth1Client.mk (ClientConn.mk 1)) ∧
      ∃ secret err,
        w.GetSiteJwtSecret (goEnv (.ok { JwtSecret := some [1, 2, 3] })) "" =
          some (secret, err,
            [Event.rpc (Auth1Client.mk (ClientConn.mk 1)) w.md w.timeoutInSecs
              { SiteKey := if "" = "" then w.defaultSiteKey else "" }]) ∧
        (∀ r, (goEnv (.ok { JwtSecret := some [1, 2, 3] })).GetSiteJwtSecret
            (Auth1Client.mk (ClientConn.mk 1)) w.md w.timeoutInSecs
            { SiteKey := if "" = "" then w.defaultSiteKey else "" } = .ok r →
          secret = r.JwtSecret ∧ err = none) ∧
        (∀ e, (goEnv (.ok { JwtSecret := some [1, 2, 3] })).GetSiteJwtSecret
            (Auth1Client.mk (ClientConn.mk 1)) w.md w.timeoutInSecs
            { SiteKey := if "" = "" then w.defaultSiteKey else "" } = .error e →
          secret = none ∧ err = some e) :=
  ⟨_, rfl, rfl, GetSiteJwtSecret_one_call (goEnv (.ok { JwtSecret := some [1, 2, 3] })) _
    (Auth1Client.mk (ClientConn.mk 1)) "" rfl⟩

/-! ## Options: timeout, API key, verbose flag -/

theorem initialClient_timeout (parsed : url.URL) (tenant site : String) :
    (initialClient parsed tenant site).timeoutInSecs = 30 * time.Second := by
  have h30 : wrap64 (time.Second * 30) = 30 * time.Second := by decide
  simp only [initialClient]
  split <;> exact h30

theorem initialClient_apikey (parsed : url.URL) (tenant site : String) :
    (initialClient parsed tenant site).defaultApiKey = url.Userinfo.Username parsed.User ∧
    (url.Userinfo.Username parsed.User ≠ "" → (initialClient parsed tenant site).md =
      [("apikey", [url.Userinfo.Username parsed.User])]) ∧
    (url.Userinfo.Username parsed.User = "" → (initialClient parsed tenant site).md = []) := by
  simp only [initialClient]
  by_cases h : url.Userinfo.Username parsed.User = ""
  · simp [h]
  · simp only [ne_eq, h, not_false_eq_true, if_true, true_implies, false_implies, and_true]
    exact ⟨rfl, rfl⟩

/-- C8, as stated, fails: `WithRequestTimeout(9223372037)` leaves a timeout of
`-9223372036709551616` nanoseconds, not of 9223372037 seconds, since the `int64`
product of the seconds and `time.Second` wraps around. -/
theorem NewClient_timeout_wraps :
    (NewClient (goEnv (.error "unavailable")) "auth1://localhost:50051/tenant/site"
        ([OptionCall.withRequestTimeout 9223372037].map OptionCall.toOption)).1.map
      (fun w => w.timeoutInSecs) = some (-9223372036709551616) ∧
    (-9223372036709551616 : Int) ≠ 9223372037 * time.Second := by
  decide

/-- C8, amended: the timeout of a constructed client is 30 seconds when the list
has no `WithRequestTimeout`; otherwise, for `WithRequestTimeout(n)` the last such
option, it is the `int64` product of `n` and `time.Second`, which is exactly `n`
seconds for `-9223372036 ≤ n ≤ 9223372036`; `WithVerbose` does not change it; and
it is the timeout of the remote call `GetSiteJwtSecret` makes. -/
theorem NewClient_timeout (env : Env) (auth1uri : String) (calls : List OptionCall)
    (w : Auth1Wrapper)
    (hw : (NewClient env auth1uri (calls.map OptionCall.toOption)).1 = some w) :
    ((∀ c ∈ calls, c.isTimeout = false) → w.timeoutInSecs = 30 * time.Second) ∧
    (∀ pre post n, calls = pre ++ OptionCall.withRequestTimeout n :: post →
      (∀ c ∈ post, c.isTimeout = false) →
      w.timeoutInSecs = wrap64 (n * time.Second) ∧
      (-9223372036 ≤ n → n ≤ 9223372036 → w.timeoutInSecs = n * time.Second)) ∧
    (∀ rpcEnv k, ∃ secret err acli req,
      w.GetSiteJwtSecret rpcEnv k =
        some (secret, err, [Event.rpc acli w.md w.timeoutInSecs req])) := by
  obtain ⟨parsed, tenant, site, creds, conn, hp, hseg, hs, hd, hok, rfl⟩ :=
    NewClient_some env auth1uri _ w hw
  have ht : (connected ((calls.map OptionCall.toOption).foldl (fun w opt => opt w)
      (initialClient parsed tenant site)) conn).timeoutInSecs =
      (applyCalls calls (initialClient parsed tenant site)).timeoutInSecs := rfl
  refine ⟨?_, ?_, ?_⟩
  · intro hnone
    rw [ht, applyCalls_timeout_none _ _ hnone, initialClient_timeout]
  · intro pre post n hcalls hpost
    have hwrap : (connected ((calls.map OptionCall.toOption).foldl (fun w opt => opt w)
        (initialClient parsed tenant site)) conn).timeoutInSecs = wrap64 (n * time.Second) := by
      rw [ht, hcalls, applyCalls_timeout_last _ _ _ _ hpost]
    refine ⟨hwrap, fun h1 h2 => ?_⟩
    rw [hwrap]
    apply wrap64_of_range
    · simp only [time.Second]
      omega
    · simp only [time.Second]
      omega
  · intro rpcEnv k
    rw [GetSiteJwtSecret_eq rpcEnv _ (Auth1Client.mk conn) k rfl]
    split
    · exact ⟨_, _, _, _, rfl⟩
    · exact ⟨_, _, _, _, rfl⟩

/-- The amended C8 at `WithRequestTimeout(5), WithVerbose(), WithRequestTimeout(2),
WithVerbose()`: the timeout is two seconds. -/
theorem NewClient_timeout_witness :
    ∃ w, (NewClient (goEnv (.error "unavailable")) "auth1://localhost:50051/tenant/site"
        ([OptionCall.withRequestTimeout 5, OptionCall.withVerbose,
          OptionCall.withRequestTimeout 2, OptionCall.withVerbose].map
            OptionCall.toOption)).1 = some w ∧
      w.timeoutInSecs = 2 * time.Second ∧ w.timeoutInSecs = 2000000000 :=
  ⟨_, rfl,
    ((NewClient_timeout (goEnv (.error "unavailable")) "auth1://localhost:50051/tenant/site"
      [OptionCall.withRequestTimeout 5, OptionCall.withVerbose,
        OptionCall.withRequestTimeout 2, OptionCall.withVerbose] _ rfl).2.1
      [OptionCall.withRequestTimeout 5, OptionCall.withVerbose] [OptionCall.withVerbose] 2 rfl
      (by decide)).2 (by decide) (by decide),
    by decide⟩

/-- C9: the default API key of a constructed client is the user name of the
URI; its outgoing metadata is the single pair `apikey ↦ key` when the key is not
empty and is empty when the URI has no user-info or an empty user name; and the
options change none of tenant, site, default API key and metadata: they are those
of the client built without options. -/
theorem NewClient_api_key (env : Env) (auth1uri : String) (calls : List OptionCall)
    (w : Auth1Wrapper)
    (hw : (NewClient env auth1uri (calls.map OptionCall.toOption)).1 = some w) :
    ∃ parsed, env.ParseRequestURI auth1uri = .ok parsed ∧
      w.defaultApiKey = url.Userinfo.Username parsed.User ∧
      (w.defaultApiKey ≠ "" → w.md = [("apikey", [w.defaultApiKey])]) ∧
      ((parsed.User = none ∨ ∃ u, parsed.User = some u ∧ u.username = "") → w.md = []) ∧
      ∃ w0, (NewClient env auth1uri []).1 = some w0 ∧
        w.defaultTenantKey = w0.defaultTenantKey ∧ w.defaultSiteKey = w0.defaultSiteKey ∧
        w.defaultApiKey = w0.defaultApiKey ∧ w.md = w0.md := by
  obtain ⟨parsed, tenant, site, creds, conn, hp, hseg, hs, hd, hok, rfl⟩ :=
    NewClient_some env auth1uri _ w hw
  have hf := applyCalls_fields calls (initialClient parsed tenant site)
  have hi := initialClient_apikey parsed tenant site
  have hkey : (connected ((calls.map OptionCall.toOption).foldl (fun w opt => opt w)
      (initialClient parsed tenant site)) conn).defaultApiKey =
      url.Userinfo.Username parsed.User := by
    show (applyCalls calls (initialClient parsed tenant site)).defaultApiKey = _
    rw [hf.2.2.2.2.2, hi.1]
  have hmd : (connected ((calls.map OptionCall.toOption).foldl (fun w opt => opt w)
      (initialClient parsed tenant site)) conn).md = (initialClient parsed tenant site).md := by
    show (applyCalls calls (initialClient parsed tenant site)).md = _
    rw [hf.2.1]
  refine ⟨parsed, hp, hkey, ?_, ?_, ?_⟩
  · rw [hkey, hmd]
    exact hi.2.1
  · intro hu
    rw [hmd]
    apply hi.2.2
    rcases hu with h | ⟨u, h, hu⟩
    · rw [h]
      rfl
    · rw [h]
      exact hu
  · refine ⟨_, by rw [NewClient_ok env auth1uri [] parsed tenant site creds conn hp hseg hs hd],
      ?_, ?_, ?_, ?_⟩
    · exact hf.2.2.2.1
    · exact hf.2.2.2.2.1
    · exact hf.2.2.2.2.2
    · exact hf.2.1

/-- The URI of `TestGetJwtSecret`: the API key before the `@` becomes the default
API key and the one entry of the metadata. -/
theorem NewClient_api_key_witness :
    ∃ w, (NewClient (goEnv (.error "unavailable"))
        "auth1://2ZTLhg28pF6a2eSbAeHn2UUHyFy2ZTLhaqCgsT0yvo4G63nR6G9QqK@localhost:50051/hello/world"
        ([OptionCall.withRequestTimeout 5, OptionCall.withVerbose].map
          OptionCall.toOption)).1 = some w ∧
      w.defaultApiKey = "2ZTLhg28pF6a2eSbAeHn2UUHyFy2ZTLhaqCgsT0yvo4G63nR6G9QqK" ∧
      w.md = [("apikey", ["2ZTLhg28pF6a2eSbAeHn2UUHyFy2ZTLhaqCgsT0yvo4G63nR6G9QqK"])] ∧
      ∃ parsed, (goEnv (.error "unavailable")).ParseRequestURI
          "auth1://2ZTLhg28pF6a2eSbAeHn2UUHyFy2ZTLhaqCgsT0yvo4G63nR6G9QqK@localhost:50051/hello/world"
          = .ok parsed ∧
        w.defaultApiKey = url.Userinfo.Username parsed.User ∧
        (w.defaultApiKey ≠ "" → w.md = [("apikey", [w.defaultApiKey])]) ∧
        ((parsed.User = none ∨ ∃ u, parsed.User = some u ∧ u.username = "") → w.md = []) ∧
        ∃ w0, (NewClient (goEnv (.error "unavailable"))
          "auth1://2ZTLhg28pF6a2eSbAeHn2UUHyFy2ZTLhaqCgsT0yvo4G63nR6G9QqK@localhost:50051/hello/world"
            []).1 = some w0 ∧
          w.defaultTenantKey = w0.defaultTenantKey ∧ w.defaultSiteKey = w0.defaultSiteKey ∧
          w.defaultApiKey = w0.defaultApiKey ∧ w.md = w0.md :=
  ⟨_, rfl, by decide, by decide,
    NewClient_api_key (goEnv (.error "unavailable"))
      "auth1://2ZTLhg28pF6a2eSbAeHn2UUHyFy2ZTLhaqCgsT0yvo4G63nR6G9QqK@localhost:50051/hello/world"
      [OptionCall.withRequestTimeout 5, OptionCall.withVerbose] _ rfl⟩

theorem applyCalls_insert_verbose (pre post : List OptionCall) (w : Auth1Wrapper) :
    (applyCalls (pre ++ OptionCall.withVerbose :: post) w).withoutVerbose =
      (applyCalls (pre ++ post) w).withoutVerbose := by
  rw [applyCalls_append, applyCalls_append, applyCalls_cons]
  exact applyCalls_withoutVerbose post _ _ rfl

theorem Close_verbose_irrelevant (env : Env) (w1 w2 : Auth1Wrapper)
    (h : w1.withoutVerbose = w2.withoutVerbose) :
    (w1.Close env).2.1 = (w2.Close env).2.1 ∧
    (w1.Close env).1.withoutVerbose = (w2.Close env).1.withoutVerbose ∧
    (w1.Close env).2.2.filter (fun e => !e.isLog) =
      (w2.Close env).2.2.filter (fun e => !e.isLog) := by
  cases w1 with
  | mk conn1 md1 acli1 t1 s1 k1 to1 v1 =>
    cases w2 with
    | mk conn2 md2 acli2 t2 s2 k2 to2 v2 =>
      simp only [Auth1Wrapper.withoutVerbose, Auth1Wrapper.mk.injEq, and_true] at h
      obtain ⟨rfl, rfl, rfl, rfl, rfl, rfl, rfl⟩ := h
      cases conn1 with
      | none =>
        cases v1 <;> cases v2 <;>
          simp [Auth1Wrapper.Close, Auth1Wrapper.withoutVerbose, Event.isLog]
      | some conn =>
        cases he : env.connClose conn <;> cases v1 <;> cases v2 <;>
          simp [Auth1Wrapper.Close, Auth1Wrapper.withoutVerbose, Event.isLog, he]

/-- C10: verbose logging never changes an outcome. Adding `WithVerbose` anywhere
in the options leaves the error of `NewClient`, its client up to the verbose flag
and its effects other than log lines the same, for every parser and transport; and
on two clients that differ in the verbose flag only, `Close` returns the same
error, performs the same effects other than log lines, and leaves both closed and
still equal up to the flag. -/
theorem verbose_changes_no_outcome (env : Env) (auth1uri : String)
    (pre post : List OptionCall) :
    ((NewClient env auth1uri
        ((pre ++ OptionCall.withVerbose :: post).map OptionCall.toOption)).2.1 =
      (NewClient env auth1uri ((pre ++ post).map OptionCall.toOption)).2.1 ∧
    (NewClient env auth1uri
        ((pre ++ OptionCall.withVerbose :: post).map OptionCall.toOption)).1.map
        Auth1Wrapper.withoutVerbose =
      (NewClient env auth1uri ((pre ++ post).map OptionCall.toOption)).1.map
        Auth1Wrapper.withoutVerbose ∧
    (NewClient env auth1uri
        ((pre ++ OptionCall.withVerbose :: post).map OptionCall.toOption)).2.2.filter
        (fun e => !e.isLog) =
      (NewClient env auth1uri ((pre ++ post).map OptionCall.toOption)).2.2.filter
        (fun e => !e.isLog)) ∧
    (∀ w1 w2 : Auth1Wrapper, w1.withoutVerbose = w2.withoutVerbose →
      (w1.Close env).2.1 = (w2.Close env).2.1 ∧
      (w1.Close env).1.withoutVerbose = (w2.Close env).1.withoutVerbose ∧
      (w1.Close env).1.conn = none ∧ (w2.Close env).1.conn = none ∧
      (w1.Close env).2.2.filter (fun e => !e.isLog) =
        (w2.Close env).2.2.filter (fun e => !e.isLog)) := by
  constructor
  · rcases NewClient_cases env auth1uri with ⟨err, hp⟩ | ⟨parsed, hp, hlen⟩ |
      ⟨parsed, hp, hlen, hs⟩ | ⟨parsed, tenant, site, creds, err, hp, hseg, hs, hd⟩ |
      ⟨parsed, tenant, site, creds, conn, hp, hseg, hs, hd⟩
    · simp [NewClient_parse_error env auth1uri _ err hp]
    · simp [NewClient_bad_path env auth1uri _ parsed hp hlen]
    · simp [NewClient_bad_scheme env auth1uri _ parsed hp hlen hs]
    · rw [NewClient_dial_error env auth1uri _ parsed tenant site creds err hp hseg hs hd,
        NewClient_dial_error env auth1uri _ parsed tenant site creds err hp hseg hs hd]
      refine ⟨rfl, rfl, ?_⟩
      have hlog : ∀ b : Bool, List.filter (fun e => !e.isLog)
          (dialEvent parsed creds ::
            (if b then
              [Event.log ("Auth1: grpc.Dial(" ++ parsed.Host ++ ") failed: " ++ err ++ "\n")]
            else [])) = [dialEvent parsed creds] := by
        intro b
        cases b <;> simp [Event.isLog, dialEvent]
      rw [hlog, hlog]
    · rw [NewClient_ok env auth1uri _ parsed tenant site creds conn hp hseg hs hd,
        NewClient_ok env auth1uri _ parsed tenant site creds conn hp hseg hs hd]
      refine ⟨rfl, ?_, rfl⟩
      have h := applyCalls_insert_verbose pre post (initialClient parsed tenant site)
      have hc : ∀ x y : Auth1Wrapper, x.withoutVerbose = y.withoutVerbose →
          (connected x conn).withoutVerbose = (connected y conn).withoutVerbose := by
        intro x y hxy
        cases x
        cases y
        simp only [Auth1Wrapper.withoutVerbose, Auth1Wrapper.mk.injEq, and_true] at hxy
        simp only [Auth1Wrapper.withoutVerbose, connected, Auth1Wrapper.mk.injEq, and_true,
          true_and]
        exact ⟨hxy.2.1, hxy.2.2.2⟩
      simp only [Option.map_some']
      exact congrArg some (hc _ _ h)
  · intro w1 w2 h
    obtain ⟨h1, h2, h3⟩ := Close_verbose_irrelevant env w1 w2 h
    exact ⟨h1, h2, Close_conn env w1, Close_conn env w2, h3⟩

/-- C10 at the URI of `TestServerUnavailable`, with and without `WithVerbose`, and
at the two clients so built. -/
theorem verbose_changes_no_outcome_witness :
    ∃ w1 w2,
      (NewClient (goEnv (.error "unavailable")) "auth1://xxx:1234/a/b"
        ([OptionCall.withVerbose].map OptionCall.toOption)).1 = some w1 ∧
      (NewClient (goEnv (.error "unavailable")) "auth1://xxx:1234/a/b"
        (([] : List OptionCall).map OptionCall.toOption)).1 = some w2 ∧
      w1.verbose = true ∧ w2.verbose = false ∧
      w1.withoutVerbose = w2.withoutVerbose ∧
      (w1.Close (goEnv (.error "unavailable"))).2.1 =
        (w2.Close (goEnv (.error "unavailable"))).2.1 ∧
      (w1.Close (goEnv (.error "unavailable"))).1.withoutVerbose =
        (w2.Close (goEnv (.error "unavailable"))).1.withoutVerbose ∧
      (w1.Close (goEnv (.error "unavailable"))).1.conn = none ∧
      (w2.Close (goEnv (.error "unavailable"))).1.conn = none ∧
      (w1.Close (goEnv (.error "unavailable"))).2.2.filter (fun e => !e.isLog) =
        (w2.Close (goEnv (.error "unavailable"))).2.2.filter (fun e => !e.isLog) :=
  ⟨_, _, rfl, rfl, rfl, rfl, by decide,
    (verbose_changes_no_outcome (goEnv (.error "unavailable")) "auth1://xxx:1234/a/b" [] []).2
      _ _ (by decide)⟩

end Auth1lib
